import Mathlib

/-!
Verification of the metadata-resolution pipeline of JDtoGS (src/app.py)
against its natural-language specification.

The Python source is shallowly embedded: strings are Lean `String`
(`List Char` underneath), Python dicts with a fixed key universe become
structures of `Option` fields, ordered dicts become association lists,
and Python integers become `Int`.  Regular-expression searches
(`re.search`) are embedded as explicit left-to-right scanners that
reproduce the leftmost-match rule and the greedy/backtracking behaviour
of the concrete patterns used in the source (each scanner documents the
pattern it implements and why the simplifications are exact for that
pattern).  Character classes `\w`, `\d`, `\s` and the case-mapping
functions are modelled at ASCII granularity (`Char.isAlphanum`,
`Char.isDigit`, `Char.isWhitespace`, `Char.toLower`), which coincides
with Python on all ASCII input; every concrete input used in a theorem
below is ASCII.  Library calls that leave the modelled core
(`urllib.parse.urlparse().hostname`, `tldextract.extract`) are treated
as given views of the URL, carried as fields of the `Url` structure.
A Python function that can raise an exception observable by a caller in
the source is embedded with `Except Unit` (the error being the raised
exception).
-/

/-! ## Python string primitives -/

/-- Python substring test `key in hay` on character lists: `key` occurs
contiguously in `hay` (the empty key occurs in everything). -/
def containsSub (key : List Char) : List Char → Bool
  | [] => key.isEmpty
  | c :: rest => key.isPrefixOf (c :: rest) || containsSub key rest

/-- Python `needle in hay` for strings. -/
def pyIn (needle hay : String) : Bool := containsSub needle.data hay.data

/-- Python `str.strip()`: drop leading and trailing whitespace. -/
def pyStrip (s : String) : String :=
  String.mk (((s.data.dropWhile Char.isWhitespace).reverse.dropWhile Char.isWhitespace).reverse)

/-- Python `str.lower()` (ASCII granularity). -/
def pyLower (s : String) : String := String.mk (s.data.map Char.toLower)

/-- Python `str.capitalize()`: first character upper-cased, the rest
lower-cased; empty for the empty string. -/
def pyCapitalize (s : String) : String :=
  match s.data with
  | [] => ""
  | c :: t => String.mk (c.toUpper :: t.map Char.toLower)

/-- Maximal runs of characters satisfying `p` (used for `str.split()`
with no argument and for splitting a slug on non-alphanumeric runs);
`cur` accumulates the current run in reverse. -/
def runsAcc (p : Char → Bool) (cur : List Char) : List Char → List (List Char)
  | [] => if cur.isEmpty then [] else [cur.reverse]
  | c :: rest =>
    if p c then runsAcc p (c :: cur) rest
    else if cur.isEmpty then runsAcc p [] rest
    else cur.reverse :: runsAcc p [] rest

/-- Join character lists with a single separator character between
consecutive items, like Python `sep.join(...)`. -/
def joinWith (sep : Char) : List (List Char) → List Char
  | [] => []
  | [w] => w
  | w :: v :: ws => w ++ sep :: joinWith sep (v :: ws)

/-- Python `" ".join(...)` on character lists. -/
def joinSpace (l : List (List Char)) : List Char := joinWith ' ' l

/-- Python `" ".join(strings)`. -/
def pyJoinSpace (l : List String) : String := String.mk (joinSpace (l.map String.data))

/-- `re.sub(r"\s+", " ", v).strip()` — also `" ".join(v.split())`:
collapse every whitespace run to a single space and trim the ends. -/
def cleanWs (s : String) : String :=
  String.mk (joinSpace (runsAcc (fun c => !c.isWhitespace) [] s.data))

/-- Python `s.split(sep)` for a non-empty separator, on character lists;
the `Nat` argument is fuel bounded by the input length (each step
consumes at least one character), keeping the recursion structural. -/
def splitOnAux (sep : List Char) : Nat → List Char → List Char → List (List Char)
  | 0, cur, l => [cur.reverse ++ l]
  | Nat.succ _, cur, [] => [cur.reverse]
  | Nat.succ fuel, cur, c :: rest =>
    if !sep.isEmpty && sep.isPrefixOf (c :: rest) then
      cur.reverse :: splitOnAux sep fuel [] (rest.drop (sep.length - 1))
    else
      splitOnAux sep fuel (c :: cur) rest

/-- Python `s.split(sep)` for a non-empty separator. -/
def pySplit (s sep : String) : List String :=
  (splitOnAux sep.data (s.data.length + 1) [] s.data).map String.mk

/-- Python `s.replace(pat, rep)` for a non-empty pattern: non-overlapping
left-to-right replacement, scanning continues after the replacement.
The `Nat` argument is fuel bounded by the input length. -/
def replaceAux (pat rep : List Char) : Nat → List Char → List Char
  | 0, l => l
  | Nat.succ _, [] => []
  | Nat.succ fuel, c :: rest =>
    if !pat.isEmpty && pat.isPrefixOf (c :: rest) then
      rep ++ replaceAux pat rep fuel (rest.drop (pat.length - 1))
    else
      c :: replaceAux pat rep fuel rest

/-- Python `s.replace(pat, rep)` for a non-empty pattern. -/
def pyReplace (s pat rep : String) : String :=
  String.mk (replaceAux pat.data rep.data (s.data.length + 1) s.data)

/-- Python `a or b` where `a` is an optional string (`None`/empty are
falsy) and `b` a string. -/
def orOptS (a : Option String) (b : String) : String :=
  match a with
  | some s => if s = "" then b else s
  | none => b

/-- Python `a or b` on strings. -/
def orSS (a b : String) : String := if a = "" then b else a

/-! ## Regex scanners for `find_id_from_url` (src/app.py lines 283-296)

The source applies three `re.search` patterns in order:
  1. `(?:[_-]|\b)R[-_]?(\d{3,})(?:\b|/|$)` with `re.IGNORECASE`,
  2. `/jobs/(\d+)(?:\b|/|$)`,
  3. `/(?:jobs?|postings)/([a-z0-9-]{8,})(?:\b|/|$)` with `re.IGNORECASE`.
-/

/-- `\w` at ASCII granularity: letters, digits, underscore. -/
def isWordChar (c : Char) : Bool := c.isAlphanum || c == '_'

/-- `(?:\b|/|$)` immediately after one or more digits.  The last matched
character is a digit (a word character), so `\b` holds exactly when the
next character is a non-word character or the string ends; `/` is a
non-word character, so the three alternatives collapse to this test.
Shortening the greedy digit run never helps: the character after a
shortened run is a digit, failing all three alternatives. -/
def boundaryAfterDigits : List Char → Bool
  | [] => true
  | c :: _ => !isWordChar c

/-- `(\d{3,})(?:\b|/|$)` at the head of `l`: the maximal digit run, of
length at least three, with a boundary after it. -/
def matchDigits3 (l : List Char) : Option (List Char) :=
  if 3 ≤ (l.takeWhile Char.isDigit).length && boundaryAfterDigits (l.dropWhile Char.isDigit) then
    some (l.takeWhile Char.isDigit)
  else none

/-- `[-_]?(\d{3,})(?:\b|/|$)` at the head of `rest` (what follows the
`R`).  The optional `[-_]` is committed when present: if consuming it
fails, the un-consumed alternative starts the digit run at `-`/`_` and
fails as well. -/
def matchRnumTail (rest : List Char) : Option (List Char) :=
  match rest with
  | [] => none
  | d :: r2 => if d == '-' || d == '_' then matchDigits3 r2 else matchDigits3 rest

/-- `R[-_]?(\d{3,})(?:\b|/|$)` at the head of `l`, case-insensitive on
the `R`. -/
def matchRnum : List Char → Option (List Char)
  | [] => none
  | c :: rest => if c == 'R' || c == 'r' then matchRnumTail rest else none

/-- `\b` before a word character, given the previous character
(`none` = start of string). -/
def wordBoundaryBefore : Option Char → Bool
  | none => true
  | some p => !isWordChar p

/-- Leftmost match of `(?:[_-]|\b)R[-_]?(\d{3,})(?:\b|/|$)` (ignorecase):
scan every start position; at each, try the `[_-]` alternative (consume
the punctuation, then `R...`), then the `\b` alternative (zero-width,
then `R...` at the same position).  Returns the digit group. -/
def searchWorkday (prev : Option Char) : List Char → Option (List Char)
  | [] => none
  | c :: rest =>
    match (if c == '_' || c == '-' then matchRnum rest else none) with
    | some ds => some ds
    | none =>
      match (if (c == 'R' || c == 'r') && wordBoundaryBefore prev then matchRnum (c :: rest) else none) with
      | some ds => some ds
      | none => searchWorkday (some c) rest

/-- Expect a literal at the head of `l`; return the remainder. -/
def matchLit : List Char → List Char → Option (List Char)
  | [], l => some l
  | _ :: _, [] => none
  | k :: ks, c :: cs => if c == k then matchLit ks cs else none

/-- Case-insensitive literal (the literal is given lower-case). -/
def matchLitCI : List Char → List Char → Option (List Char)
  | [], l => some l
  | _ :: _, [] => none
  | k :: ks, c :: cs => if c.toLower == k.toLower then matchLitCI ks cs else none

/-- `/jobs/(\d+)(?:\b|/|$)` at the head of `l` (case-sensitive). -/
def matchJobsNum (l : List Char) : Option (List Char) :=
  match matchLit "/jobs/".data l with
  | none => none
  | some rest =>
    let ds := rest.takeWhile Char.isDigit
    if 1 ≤ ds.length && boundaryAfterDigits (rest.dropWhile Char.isDigit) then some ds else none

/-- `[a-z0-9-]` with `re.IGNORECASE`. -/
def isSlugChar (c : Char) : Bool := c.isAlphanum || c == '-'

/-- `(?:\b|/|$)` after a slug character `lc` (which may be `-`, a
non-word character, so `\b` is a genuine exclusive-or of wordness). -/
def slugBoundary (lc : Char) : Option Char → Bool
  | none => true
  | some n => n == '/' || (isWordChar lc != isWordChar n)

/-- Greedy `([a-z0-9-]{8,})(?:\b|/|$)` with backtracking: try the prefix
of `run` of length `L`, then `L-1`, ..., down to 8.  `run` is the
maximal slug-character run and `after` what follows it. -/
def slugBacktrack (run after : List Char) : Nat → Option (List Char)
  | 0 => none
  | Nat.succ l =>
    if Nat.succ l < 8 then none
    else
      let cand := run.take (Nat.succ l)
      let nextc := if Nat.succ l < run.length then run.get? (Nat.succ l) else after.head?
      match cand.getLast? with
      | none => none
      | some lc => if slugBoundary lc nextc then some cand else slugBacktrack run after l

/-- `([a-z0-9-]{8,})(?:\b|/|$)` at the head of `rest`. -/
def matchSlug (rest : List Char) : Option (List Char) :=
  slugBacktrack (rest.takeWhile isSlugChar) (rest.dropWhile isSlugChar)
    (rest.takeWhile isSlugChar).length

/-- `/(?:jobs?|postings)/([a-z0-9-]{8,})(?:\b|/|$)` at the head of `l`
(ignorecase).  `jobs?` then `/` accepts exactly the literals `/jobs/`
and `/job/` (they disagree on the fourth character, so at most one
applies and the preference order is immaterial). -/
def matchGenericSlug (l : List Char) : Option (List Char) :=
  match matchLitCI "/jobs/".data l with
  | some rest => matchSlug rest
  | none =>
    match matchLitCI "/job/".data l with
    | some rest => matchSlug rest
    | none =>
      match matchLitCI "/postings/".data l with
      | some rest => matchSlug rest
      | none => none

/-- Leftmost `re.search`: try the position matcher at every start. -/
def searchPos (m : List Char → Option (List Char)) : List Char → Option (List Char)
  | [] => m []
  | c :: rest =>
    match m (c :: rest) with
    | some r => some r
    | none => searchPos m rest

/-- First pattern family of `find_id_from_url`: Workday-style requisition
number, returned as `"R" + digits` (src/app.py lines 284-287). -/
def famWorkday (url : String) : Option String :=
  (searchWorkday none url.data).map (fun ds => String.mk ('R' :: ds))

/-- Second family: Greenhouse-style `/jobs/<digits>` (lines 288-291). -/
def famJobsNum (url : String) : Option String :=
  (searchPos matchJobsNum url.data).map String.mk

/-- Third family: `/jobs/`, `/job/` or `/postings/` followed by an 8+
character alphanumeric-or-hyphen slug (lines 292-295). -/
def famSlug (url : String) : Option String :=
  (searchPos matchGenericSlug url.data).map String.mk

/-- `find_id_from_url` (src/app.py lines 283-296): the three pattern
families tried in order, first match returned, else the empty string. -/
def find_id_from_url (url : String) : String :=
  match famWorkday url with
  | some r => r
  | none =>
    match famJobsNum url with
    | some r => r
    | none =>
      match famSlug url with
      | some r => r
      | none => ""

/-! ## Data model -/

/-- A parsed JSON value (`json.loads` output); numbers are modelled as
integers, which covers every use in the source (the parsed value is only
inspected for its shape, one string field, and truthiness). -/
inductive Json where
  | null : Json
  | bool : Bool → Json
  | num : Int → Json
  | str : String → Json
  | arr : List Json → Json
  | obj : List (String × Json) → Json

/-- Python truthiness of a JSON value. -/
def pyTruthy : Json → Bool
  | .null => false
  | .bool b => b
  | .num n => n != 0
  | .str s => s != ""
  | .arr l => !l.isEmpty
  | .obj l => !l.isEmpty

/-- `dict.get(key)` on a parsed JSON object (keys of a parsed object are
unique, so first-match lookup is exact). -/
def jGet (kvs : List (String × Json)) (key : String) : Option Json :=
  List.lookup key kvs

/-- Python `a or b` on two optional JSON values (`None` and falsy values
fall through). -/
def pyOrJson (a b : Option Json) : Option Json :=
  match a with
  | some j => if pyTruthy j then some j else b
  | none => b

/-- The observations of a parsed HTML document (`BeautifulSoup`) that the
pipeline reads.  An `Option String` field is `none` when the selected
element (or its required attribute) is missing, and `some t` when it is
present with extracted text `t` — for element fields `t` is the value
of `get_text(strip=True)`, which is the empty string for an element with
no text. -/
structure Soup where
  /-- Parse results of the `script type="application/ld+json"` blocks, in
  document order; `none` is a block whose `json.loads` raised. -/
  jsonLdScripts : List (Option Json)
  /-- `content` attribute of `meta property="og:site_name"`. -/
  ogSiteName : Option String
  /-- `content` attribute of `meta property="og:title"`. -/
  ogTitle : Option String
  /-- `select_one("div#app_body h1.app-title, h1")` text (Greenhouse). -/
  ghHeader : Option String
  /-- `select_one("div#header .company-name, a.company-name, a[href*='greenhouse.io/']")` text. -/
  ghCompany : Option String
  /-- `select_one(".location, .location-and-id, .metadata .location")` text. -/
  ghLocation : Option String
  /-- `select_one("h2.posting-headline, .posting-headline h2, h1")` text (Lever). -/
  leverHeader : Option String
  /-- `select_one(".location, .posting-categories .location")` text (Lever). -/
  leverLocation : Option String
  /-- First `h1` element text (Workday). -/
  h1 : Option String
  /-- `content` attribute of `meta name="twitter:description"`. -/
  twitterDesc : Option String
  /-- `content` attribute of `meta property="og:description"`. -/
  ogDesc : Option String
  /-- `title` element text. -/
  titleTag : Option String

/-- A job-posting URL together with the two library-computed views the
source takes of it: `urllib.parse.urlparse(url).hostname or ""` and
`tldextract.extract(url)` (registrable-domain split against the public
suffix list, outside the modelled core). -/
structure Url where
  raw : String
  host : String
  extDomain : String
  extSuffix : String
deriving DecidableEq

/-- The configuration data the pipeline reads (config.yml, §3 of the
spec): every map is an insertion-ordered association list, as a parsed
YAML mapping is.  `defaults_source`/`defaults_status` are
`cfg.get("defaults", {}).get("source"/"status", "")`. -/
structure Config where
  company_map : List (String × String)
  industry_allowed : List String
  industry_aliases : List (String × String)
  industry_rules : List (String × List String)
  defaults_source : String
  defaults_status : String
deriving DecidableEq

/-- The scraped-metadata dict: its key universe in the source is exactly
`title`, `company`, `location`, `__resolved_company`; a `none` field is
an absent key, `some ""` a key present with the empty string. -/
structure Meta where
  title : Option String
  company : Option String
  location : Option String
  resolvedCompany : Option String
deriving DecidableEq

/-- The empty dict `{}`. -/
def Meta.empty : Meta := ⟨none, none, none, none⟩

/-! ## Date/season helpers (src/app.py lines 118-171, 269-275) -/

/-- `SEASON_WORDS` (lines 118-123), an insertion-ordered dict. -/
def SEASON_WORDS : List (String × List String) :=
  [("spring", ["spring"]),
   ("summer", ["summer", "may-aug", "may to aug", "may through aug"]),
   ("fall", ["fall", "autumn", "sep-dec", "sept-dec"]),
   ("winter", ["winter", "dec-mar", "jan-mar"])]

/-- `GENERIC_SITES` (line 125); a set, used only for membership. -/
def GENERIC_SITES : List String := ["workday", "linkedin", "greenhouse", "lever"]

/-- `month_to_season` (lines 129-136). -/
def month_to_season (m : Int) : String :=
  if 1 ≤ m ∧ m ≤ 4 then "Spring"
  else if 5 ≤ m ∧ m ≤ 8 then "Summer"
  else if 9 ≤ m ∧ m ≤ 12 then "Fall"
  else ""

/-- `guess_period` (lines 274-275) as a function of the current month:
`month_to_season(dt_obj.month) or ""`. -/
def guess_period (month : Int) : String := orSS (month_to_season month) ""

/-- The month-abbreviation list of `detect_period_from_text`
(lines 147-161). -/
def MONTH_TOKENS : List String :=
  ["jan", "feb", "mar", "apr", "may", "jun", "jul", "aug", "sep", "sept", "oct", "nov", "dec"]

/-- `detect_period_from_text(*texts)` (lines 139-171): join the texts,
lower-case; first a direct season-keyword scan over `SEASON_WORDS` in
insertion order, then the month-token bucket heuristic, else empty. -/
def detect_period_from_text (texts : List String) : String :=
  let blob := pyLower (pyJoinSpace texts)
  match SEASON_WORDS.find? (fun sk => sk.2.any (fun k => pyIn k blob)) with
  | some sk => pyCapitalize sk.1
  | none =>
    if MONTH_TOKENS.any (fun m => pyIn m blob) then
      if ["may", "jun", "jul", "aug"].any (fun m => pyIn m blob) then "Summer"
      else if ["mar", "apr"].any (fun m => pyIn m blob) then "Spring"
      else if ["sep", "sept", "oct", "nov", "dec"].any (fun m => pyIn m blob) then "Fall"
      else if pyIn "jan" blob || pyIn "feb" blob then "Spring"
      else ""
    else ""

/-! ## Industry classification (src/app.py lines 231-266)

`load_list(cfg, "industry_allowed")` maps `str` over an already-string
list, so it is read here directly from the `Config` structure. -/

/-- `choose_first_match` (lines 231-238): first label of `allowed` (in
declared order) one of whose configured keywords occurs, lower-cased, in
the lower-cased text. -/
def choose_first_match (text : String) (rules : List (String × List String)) (allowed : List String) : String :=
  let lt := pyLower text
  match allowed.find? (fun label => ((List.lookup label rules).getD []).any (fun kw => pyIn (pyLower kw) lt)) with
  | some label => label
  | none => ""

/-- `normalize_industry` (lines 241-254): exact allowed match, then
exact alias-key match, then alias key contained in the text; the alias
value is returned unchecked. -/
def normalize_industry (raw : String) (allowed : List String) (aliases : List (String × String)) : String :=
  if raw = "" then ""
  else
    let lt := pyStrip (pyLower raw)
    match allowed.find? (fun a => lt == pyLower a) with
    | some a => a
    | none =>
      match aliases.find? (fun kv => pyLower kv.1 == lt) with
      | some kv => kv.2
      | none =>
        match aliases.find? (fun kv => pyIn (pyLower kv.1) lt) with
        | some kv => kv.2
        | none => ""

/-- `classify_industry` (lines 257-266): keyword rules over
title+company+url, then `normalize_industry` over title+company. -/
def classify_industry (title company url : String) (cfg : Config) : String :=
  let allowed := cfg.industry_allowed
  let aliases := cfg.industry_aliases
  let rules := cfg.industry_rules
  let label := choose_first_match (pyJoinSpace [title, company, url]) rules allowed
  if label ≠ "" then label
  else orSS (normalize_industry (pyStrip (pyJoinSpace [title, company])) allowed aliases) ""

/-! ## Pattern extractors on URLs (src/app.py lines 278-345) -/

/-- `extract_domain` (lines 278-280): `".".join(p for p in [ext.domain,
ext.suffix] if p)` over the tldextract split. -/
def extract_domain (u : Url) : String :=
  String.mk (joinWith '.' ([u.extDomain, u.extSuffix].filter (fun p => p ≠ "") |>.map String.data))

/-- `hostname_from_url` (lines 299-301). -/
def hostname_from_url (u : Url) : String := u.host

/-- `slug_to_name` (lines 304-306): replace non-alphanumeric runs by
single spaces, trim, capitalize each word.  Equivalently: the maximal
ASCII-alphanumeric runs, each capitalized, joined by single spaces (the
regex class `[^a-zA-Z0-9]` is exactly ASCII). -/
def slug_to_name (slug : String) : String :=
  String.mk (joinSpace ((runsAcc Char.isAlphanum [] slug.data).map
    (fun w => match w with
      | [] => []
      | c :: t => c.toUpper :: t.map Char.toLower)))

/-! ## Company resolution steps (src/app.py lines 309-345, 497-520) -/

/-- The `str(obj.get("@type", "")).lower() == "jobposting"` test
(line 319).  `str(x).lower()` can equal `"jobposting"` only when `x` is
the JSON string `"jobposting"` up to case: a missing key gives `""`,
and non-string JSON values render as digits, `True`/`False`/`None` or a
bracketed literal, none of which lower-cases to `"jobposting"`. -/
def isJobPostingType : Option Json → Bool
  | some (.str s) => pyLower s == "jobposting"
  | _ => false

/-- One candidate of the `company_from_jsonld` inner loop (lines
316-322): `ok none` means the loop continues, `ok (some s)` is
`return org["name"].strip()`, and `error ()` is the uncaught
`AttributeError` of `.strip()` on a truthy non-string `name`. -/
def candCompany : Json → Except Unit (Option String)
  | .obj kvs =>
    if isJobPostingType (jGet kvs "@type") then
      match pyOrJson (jGet kvs "hiringOrganization") (jGet kvs "hiringorganization") with
      | some (.obj okvs) =>
        match jGet okvs "name" with
        | some nj =>
          if pyTruthy nj then
            match nj with
            | .str s => .ok (some (pyStrip s))
            | _ => .error ()
          else .ok none
        | none => .ok none
      | _ => .ok none
    else .ok none
  | _ => .ok none

/-- The candidate loop over one parsed script block. -/
def scanCandidates : List Json → Except Unit (Option String)
  | [] => .ok none
  | c :: rest =>
    match candCompany c with
    | .error e => .error e
    | .ok (some s) => .ok (some s)
    | .ok none => scanCandidates rest

/-- `candidates = data if isinstance(data, list) else [data]` (line 315). -/
def jsonCandidates : Json → List Json
  | .arr l => l
  | j => [j]

/-- The script-block loop of `company_from_jsonld` (lines 309-323); a
block whose `json.loads` raised (`none`) is skipped. -/
def scanScripts : List (Option Json) → Except Unit String
  | [] => .ok ""
  | none :: rest => scanScripts rest
  | some data :: rest =>
    match scanCandidates (jsonCandidates data) with
    | .error e => .error e
    | .ok (some s) => .ok s
    | .ok none => scanScripts rest

/-- `company_from_jsonld` (lines 309-323). -/
def company_from_jsonld (soup : Soup) : Except Unit String :=
  scanScripts soup.jsonLdScripts

/-- `company_from_meta` (lines 326-332): the `og:site_name` content,
stripped, unless it lower-cases to a generic site name. -/
def company_from_meta (soup : Soup) : String :=
  match soup.ogSiteName with
  | some content =>
    if content ≠ "" then
      let name := pyStrip content
      if !GENERIC_SITES.contains (pyLower name) then name else ""
    else ""
  | none => ""

/-- `boards\.greenhouse\.io/([^/]+)/?` (ignorecase) at the head of `l`:
the literal, then the maximal non-empty run of non-`/` characters (the
trailing `/?` does not affect the group). -/
def matchGhTenant (l : List Char) : Option (List Char) :=
  match matchLitCI "boards.greenhouse.io/".data l with
  | some rest =>
    let g := rest.takeWhile (fun c => c != '/')
    if g.isEmpty then none else some g
  | none => none

/-- `jobs\.lever\.co/([^/]+)/?` (ignorecase) at the head of `l`. -/
def matchLeverTenant (l : List Char) : Option (List Char) :=
  match matchLitCI "jobs.lever.co/".data l with
  | some rest =>
    let g := rest.takeWhile (fun c => c != '/')
    if g.isEmpty then none else some g
  | none => none

/-- `https?://([a-z0-9-]+)\.wd\d+\.myworkdayjobs\.com` (ignorecase) at
the head of `l`.  The optional `s` is committed when the next character
is `s`/`S` (the un-consumed alternative would need `:` at that `s` and
fails); the greedy class runs are maximal, and shortening them never
helps because `.` is outside both classes. -/
def matchWdTenant (l : List Char) : Option (List Char) :=
  match matchLitCI "http".data l with
  | none => none
  | some r1 =>
    let r2 := match r1 with
      | c :: t => if c.toLower == 's' then t else r1
      | [] => r1
    match matchLitCI "://".data r2 with
    | none => none
    | some r3 =>
      let g := r3.takeWhile isSlugChar
      let r4 := r3.dropWhile isSlugChar
      if g.isEmpty then none
      else
        match matchLitCI ".wd".data r4 with
        | none => none
        | some r5 =>
          let ds := r5.takeWhile Char.isDigit
          let r6 := r5.dropWhile Char.isDigit
          if ds.isEmpty then none
          else
            match matchLitCI ".myworkdayjobs.com".data r6 with
            | some _ => some g
            | none => none

/-- `company_from_url_pattern` (lines 335-345): Greenhouse tenant, then
Lever tenant, then Workday tenant subdomain, converted via
`slug_to_name`; empty if none match. -/
def company_from_url_pattern (url : String) : String :=
  match searchPos matchGhTenant url.data with
  | some g => slug_to_name (String.mk g)
  | none =>
    match searchPos matchLeverTenant url.data with
    | some g => slug_to_name (String.mk g)
    | none =>
      match searchPos matchWdTenant url.data with
      | some g => slug_to_name (String.mk g)
      | none => ""

/-- Step 1 of `resolve_company` (lines 498-502): the config company map
at the exact hostname; a missing key (`None`) and a falsy mapped value
both fall through, so the step is its string with `""` as failure. -/
def step_map (cfg : Config) (url : Url) : String :=
  (List.lookup (hostname_from_url url) cfg.company_map).getD ""

/-- Step 5 of `resolve_company` (lines 516-520): the registrable
domain's second-level label, capitalized; empty when tldextract found no
domain. -/
def step_domain (url : Url) : String :=
  if url.extDomain ≠ "" then pyCapitalize url.extDomain else ""

/-- `resolve_company` (lines 497-520): the five-step fallback chain with
early returns.  The JSON-LD step can raise (see `candCompany`), which
propagates out of the function. -/
def resolve_company (url : Url) (soup : Soup) (cfg : Config) : Except Unit String :=
  let mapped := step_map cfg url
  if mapped ≠ "" then .ok mapped
  else
    match company_from_jsonld soup with
    | .error e => .error e
    | .ok c =>
      if c ≠ "" then .ok c
      else
        let c2 := company_from_meta soup
        if c2 ≠ "" then .ok c2
        else
          let c3 := company_from_url_pattern url.raw
          if c3 ≠ "" then .ok c3
          else .ok (step_domain url)

/-! ## Site adapters (src/app.py lines 350-444) -/

/-- `parse_opengraph` (lines 350-356): the stripped `og:title` and
`og:site_name` contents, `""` when the tag or its content is missing or
empty. -/
def parse_opengraph (soup : Soup) : String × String :=
  ((match soup.ogTitle with
    | some c => if c ≠ "" then pyStrip c else ""
    | none => ""),
   (match soup.ogSiteName with
    | some c => if c ≠ "" then pyStrip c else ""
    | none => ""))

/-- `adapter_greenhouse` (lines 359-370): each key is set exactly when
its element was found, to the element's stripped text. -/
def adapter_greenhouse (soup : Soup) : Meta :=
  { title := soup.ghHeader, company := soup.ghCompany, location := soup.ghLocation,
    resolvedCompany := none }

/-- `adapter_lever` (lines 373-381): title and location only. -/
def adapter_lever (soup : Soup) : Meta :=
  { title := soup.leverHeader, company := none, location := soup.leverLocation,
    resolvedCompany := none }

/-- `Location:\s*([^.|]+)` (ignorecase) at the head of `l`.  Greedy
`\s*` takes the maximal whitespace run; if the character after it is
`.`/`|` or the string ends there, backtracking gives exactly the last
whitespace character to the group (whitespace is in `[^.|]`). -/
def matchLocation (l : List Char) : Option (List Char) :=
  match matchLitCI "location:".data l with
  | none => none
  | some tail =>
    let w := tail.takeWhile Char.isWhitespace
    let rest := tail.dropWhile Char.isWhitespace
    let grp := rest.takeWhile (fun c => c != '.' && c != '|')
    if !grp.isEmpty then some grp
    else
      match w.getLast? with
      | some c => some [c]
      | none => none

/-- One meta-description attempt of `adapter_workday` (lines 389-399):
if the content is present and truthy, collapse its whitespace and search
for the location pattern. -/
def workdayLocFrom (content : Option String) : Option (List Char) :=
  match content with
  | some s => if s ≠ "" then searchPos matchLocation (cleanWs s).data else none
  | none => none

/-- `adapter_workday` (lines 384-400): title from the first `h1`;
location from `twitter:description` then `og:description`, stopping at
the first description whose text matches the location pattern. -/
def adapter_workday (soup : Soup) : Meta :=
  let loc := match workdayLocFrom soup.twitterDesc with
    | some g => some (pyStrip (String.mk g))
    | none =>
      match workdayLocFrom soup.ogDesc with
      | some g => some (pyStrip (String.mk g))
      | none => none
  { title := soup.h1, company := none, location := loc, resolvedCompany := none }

/-- `adapter_linkedin` (lines 403-408): the OG title, split on `|`,
first segment stripped. -/
def adapter_linkedin (soup : Soup) : Meta :=
  let t := (parse_opengraph soup).1
  { title := if t ≠ "" then some (pyStrip (String.mk (t.data.takeWhile (fun c => c != '|')))) else none,
    company := none, location := none, resolvedCompany := none }

/-- `adapter_generic` (lines 411-424): split the OG title on `" - "`
into stripped non-empty parts — first part title, second company — and
fall back to the `title` element when no (non-empty) title came out of
that. -/
def adapter_generic (soup : Soup) : Meta :=
  let t := (parse_opengraph soup).1
  let base : Meta := Meta.empty
  let withOg :=
    if t ≠ "" then
      let parts := ((pySplit t " - ").map pyStrip).filter (fun p => p ≠ "")
      match parts with
      | [] => base
      | [p] => { base with title := some p }
      | p :: q :: _ => { base with title := some p, company := some q }
    else base
  if withOg.title.getD "" = "" then
    match soup.titleTag with
    | some s => { withOg with title := some s }
    | none => withOg
  else withOg

/-- The adapter variants of the dispatch table. -/
inductive AdapterKind where
  | workday | greenhouse | lever | linkedin | generic
deriving DecidableEq

/-- `ADAPTERS` (lines 434-444), an insertion-ordered dict. -/
def ADAPTERS : List (String × AdapterKind) :=
  [("myworkdayjobs.com", .workday),
   ("greenhouse.io", .greenhouse),
   ("lever.co", .lever),
   ("linkedin.com", .linkedin),
   ("smartrecruiters.com", .generic),
   ("icims.com", .generic),
   ("workable.com", .generic),
   ("ashbyhq.com", .generic),
   ("bamboohr.com", .generic)]

/-- `choose_adapter` (lines 427-431): the first table entry whose key is
a substring of the domain. -/
def choose_adapter (domain : String) : Option AdapterKind :=
  (ADAPTERS.find? (fun kv => pyIn kv.1 domain)).map (fun kv => kv.2)

/-- Run one adapter variant. -/
def run_adapter : AdapterKind → Soup → Meta
  | .workday => adapter_workday
  | .greenhouse => adapter_greenhouse
  | .lever => adapter_lever
  | .linkedin => adapter_linkedin
  | .generic => adapter_generic

/-! ## `scrape` (src/app.py lines 449-484)

The HTTP fetch and parse (lines 451-457) are the boundary of the model:
`scrape` here is the pure function of the fetched document; a failed
fetch raises before any of this runs and is handled by the caller
(see `main_row`).  `load_config()` (line 468) is the configuration
argument. -/

/-- The adapter dispatch of `scrape` (lines 460-461). -/
def scrape_adapter_out (url : Url) (soup : Soup) : Meta :=
  match choose_adapter (extract_domain url) with
  | some a => run_adapter a soup
  | none => adapter_generic soup

/-- `out.setdefault("title", v)` (line 465). -/
def set_default_title (m : Meta) (v : String) : Meta :=
  match m.title with
  | some _ => m
  | none => { m with title := some v }

/-- The whitespace cleaning loop (lines 480-482) over every present
value. -/
def cleanMeta (m : Meta) : Meta :=
  { title := m.title.map cleanWs, company := m.company.map cleanWs,
    location := m.location.map cleanWs, resolvedCompany := m.resolvedCompany.map cleanWs }

/-- `scrape` after a successful fetch and parse (lines 458-484):
adapter dispatch, OG title fallback via `setdefault`, company
resolution and precedence against `GENERIC_SITES`, the diagnostic
`__resolved_company` key, and whitespace cleaning. -/
def scrape (url : Url) (soup : Soup) (cfg : Config) : Except Unit Meta :=
  let out := scrape_adapter_out url soup
  let og_t := (parse_opengraph soup).1
  let out := set_default_title out
    (if og_t ≠ "" then pyStrip (String.mk (og_t.data.takeWhile (fun c => c != '|'))) else "")
  match resolve_company url soup cfg with
  | .error e => .error e
  | .ok resolved =>
    let curr := pyStrip (out.company.getD "")
    let out :=
      if curr = "" || GENERIC_SITES.contains (pyLower curr) then
        { out with company := some resolved }
      else
        { out with company := some curr }
    let out := { out with resolvedCompany := some resolved }
    .ok (cleanMeta out)

/-! ## `_safe_format_now` (src/app.py lines 525-539)

`datetime.strftime` is the boundary of the model: it is passed in as a
function from a format string to `some` formatted text or `none` for a
raised `ValueError`. -/

/-- The Windows flag rewriting (lines 527-535): the six `%-` flags
replaced by their `%#` equivalents, in source order. -/
def winFix (fmt : String) : String :=
  pyReplace (pyReplace (pyReplace (pyReplace (pyReplace (pyReplace
    fmt "%-d" "%#d") "%-m" "%#m") "%-H" "%#H") "%-I" "%#I") "%-M" "%#M") "%-S" "%#S"

/-- `_safe_format_now` (lines 525-539): rewrite the flags on Windows,
then try the format, falling back to `"%Y-%m-%d %H:%M:%S"` on
`ValueError`. -/
def safe_format_now (isWindows : Bool) (strftime : String → Option String) (fmt : String) : Option String :=
  match strftime (if isWindows then winFix fmt else fmt) with
  | some s => some s
  | none => strftime "%Y-%m-%d %H:%M:%S"

/-! ## The `main` add-command row assembly (src/app.py lines 542-665)

The argparse namespace becomes the `Args` structure (absent flags are
`none`); the current date string and current month stand for the
clock reads; sheet I/O and prints are outside the model. -/

/-- The `add` subcommand arguments (lines 546-565). -/
structure Args where
  url : String
  source : Option String
  status : Option String
  industry : Option String
  period : Option String
  company : Option String
  title : Option String
  location : Option String
  notes : Option String
  contact_person : Option String
  contact_email : Option String
  contact_phone : Option String
  next_followup : Option String
  interview_dates : Option String
  resume_version : Option String
  cover_letter_version : Option String
  offer_received : Option String
  offer_details : Option String
  decision_made : Option String
deriving DecidableEq

/-- Lines 603-657 of `main`: from the scraped metadata (possibly empty),
the arguments, the configuration, the formatted date and the current
month, assemble the 20-entry row in `FIELDS` order. -/
def build_row (args : Args) (cfg : Config) (date_applied : String) (month : Int) (meta : Meta) : List String :=
  let raw_title := meta.title.getD ""
  let raw_company := meta.company.getD ""
  let resolved_company := meta.resolvedCompany.getD ""
  let raw_location := meta.location.getD ""
  let company := pyStrip (orOptS args.company (orSS raw_company (orSS resolved_company "")))
  let title := pyStrip (orOptS args.title (orSS raw_title ""))
  -- `location` is computed on line 610 of the source but the 20-field
  -- row has no Location column, so it goes unused there as well.
  let location := pyStrip (orOptS args.location (orSS raw_location ""))
  let notes := orOptS args.notes ""
  let indOverride := match args.industry with
    | some i => if i ≠ "" then normalize_industry i cfg.industry_allowed cfg.industry_aliases else ""
    | none => ""
  let industry := orSS indOverride (orSS (classify_industry title company args.url cfg) "")
  let perOverride := match args.period with
    | some p => if p ≠ "" then pyCapitalize p else ""
    | none => ""
  let period := orSS perOverride
    (orSS (detect_period_from_text [raw_title, args.url, notes]) (guess_period month))
  let aid := find_id_from_url args.url
  let source := orOptS args.source cfg.defaults_source
  let status := orOptS args.status cfg.defaults_status
  [aid, date_applied, company, industry, title, period, args.url,
   orOptS args.contact_person "", orOptS args.contact_email "", orOptS args.contact_phone "",
   orOptS args.source source, orOptS args.status status,
   orOptS args.next_followup "", orOptS args.interview_dates "",
   orOptS args.notes notes,
   orOptS args.resume_version "", orOptS args.cover_letter_version "",
   orOptS args.offer_received "", orOptS args.offer_details "",
   orOptS args.decision_made ""]

/-- Lines 595-657 of `main`: the scrape attempt — `.error` standing for
any exception raised by `scrape`, including a failed HTTP fetch — is
caught, a warning is printed (I/O, outside the model), the metadata is
downgraded to the empty dict, and the row is assembled regardless. -/
def main_row (scrapeResult : Except Unit Meta) (args : Args) (cfg : Config)
    (date_applied : String) (month : Int) : List String :=
  let meta := match scrapeResult with
    | .error _ => Meta.empty
    | .ok m => m
  build_row args cfg date_applied month meta

/-- First non-empty string of a list, `""` if all are empty — the
specification's reading of an ordered fallback chain, used to state the
resolver claims. -/
def firstNonEmpty : List String → String
  | [] => ""
  | s :: rest => if s = "" then firstNonEmpty rest else s

/-! ## Helper lemmas -/

theorem pyCapitalize_ne_empty (s : String) (h : s ≠ "") : pyCapitalize s ≠ "" := by
  cases s with
  | mk l =>
    cases l with
    | nil => exact absurd rfl h
    | cons c t =>
      show String.mk (c.toUpper :: t.map Char.toLower) ≠ ""
      intro hc
      have hd := congrArg String.data hc
      simp at hd

theorem step_domain_empty_iff (u : Url) : step_domain u = "" ↔ u.extDomain = "" := by
  unfold step_domain
  split_ifs with h
  · exact ⟨fun hc => absurd hc (pyCapitalize_ne_empty _ h), fun hc => absurd hc h⟩
  · simp only [not_not] at h
    simp [h]

theorem set_default_title_company (m : Meta) (v : String) :
    (set_default_title m v).company = m.company := by
  cases m with
  | mk t c l r => cases t <;> rfl

theorem set_default_title_isSome (m : Meta) (v : String) :
    ((set_default_title m v).title).isSome = true := by
  cases m with
  | mk t c l r => cases t <;> rfl

theorem digits_of_matchDigits3 {l ds : List Char} (h : matchDigits3 l = some ds) :
    (∀ c ∈ ds, Char.isDigit c) ∧ 3 ≤ ds.length := by
  unfold matchDigits3 at h
  split at h
  · next hc =>
    injection h with h2
    subst h2
    simp only [Bool.and_eq_true, decide_eq_true_eq] at hc
    exact ⟨fun c hc2 => List.mem_takeWhile_imp hc2, hc.1⟩
  · exact absurd h (by simp)

theorem digits_of_matchRnumTail {rest ds : List Char} (h : matchRnumTail rest = some ds) :
    (∀ c ∈ ds, Char.isDigit c) ∧ 3 ≤ ds.length := by
  unfold matchRnumTail at h
  split at h
  · exact absurd h (by simp)
  · split at h
    · exact digits_of_matchDigits3 h
    · exact digits_of_matchDigits3 h

theorem digits_of_matchRnum {l ds : List Char} (h : matchRnum l = some ds) :
    (∀ c ∈ ds, Char.isDigit c) ∧ 3 ≤ ds.length := by
  unfold matchRnum at h
  split at h
  · exact absurd h (by simp)
  · split at h
    · exact digits_of_matchRnumTail h
    · exact absurd h (by simp)

theorem searchWorkday_digits :
    ∀ (l : List Char) (prev : Option Char) (ds : List Char),
      searchWorkday prev l = some ds → (∀ c ∈ ds, Char.isDigit c) ∧ 3 ≤ ds.length := by
  intro l
  induction l with
  | nil => intro prev ds h; exact absurd h (by simp [searchWorkday])
  | cons c rest ih =>
    intro prev ds h
    unfold searchWorkday at h
    cases haltA : (if c == '_' || c == '-' then matchRnum rest else none) with
    | some r =>
      rw [haltA] at h
      injection h with h2
      subst h2
      split at haltA
      · exact digits_of_matchRnum haltA
      · exact absurd haltA (by simp)
    | none =>
      rw [haltA] at h
      cases haltB : (if (c == 'R' || c == 'r') && wordBoundaryBefore prev then matchRnum (c :: rest) else none) with
      | some r =>
        rw [haltB] at h
        injection h with h2
        subst h2
        split at haltB
        · exact digits_of_matchRnum haltB
        · exact absurd haltB (by simp)
      | none =>
        rw [haltB] at h
        exact ih (some c) ds h

theorem find_id_on_R_digits (ds : List Char) (hall : ∀ c ∈ ds, Char.isDigit c)
    (hlen : 3 ≤ ds.length) :
    find_id_from_url (String.mk ('R' :: ds)) = String.mk ('R' :: ds) := by
  obtain ⟨d, r2, rfl⟩ : ∃ d r2, ds = d :: r2 := by
    cases ds with
    | nil => simp at hlen
    | cons d r2 => exact ⟨d, r2, rfl⟩
  have hd : Char.isDigit d := hall d (by simp)
  have h1 : (d == '-' || d == '_') = false := by
    cases hb : d == '-' with
    | true =>
      have : d = '-' := by simpa using hb
      rw [this] at hd
      exact absurd hd (by decide)
    | false =>
      cases hb2 : d == '_' with
      | true =>
        have : d = '_' := by simpa using hb2
        rw [this] at hd
        exact absurd hd (by decide)
      | false => simp
  have ht : (d :: r2).takeWhile Char.isDigit = d :: r2 := List.takeWhile_eq_self_iff.mpr hall
  have hdrop : (d :: r2).dropWhile Char.isDigit = [] := List.dropWhile_eq_nil_iff.mpr hall
  have hmd : matchDigits3 (d :: r2) = some (d :: r2) := by
    simp only [List.length_cons] at hlen
    unfold matchDigits3
    rw [ht, hdrop]
    simp [boundaryAfterDigits]
    omega
  have hrt : matchRnumTail (d :: r2) = some (d :: r2) := by
    have hred : matchRnumTail (d :: r2)
        = if (d == '-' || d == '_') = true then matchDigits3 r2 else matchDigits3 (d :: r2) := rfl
    rw [hred, h1]
    simp [hmd]
  have hsw : searchWorkday none ('R' :: d :: r2) = some (d :: r2) := by
    unfold searchWorkday
    have e1 : (('R' : Char) == '_' || ('R' : Char) == '-') = false := by decide
    have e2 : ((('R' : Char) == 'R' || ('R' : Char) == 'r') && wordBoundaryBefore none) = true := by decide
    rw [e1]
    simp only [if_false, Bool.false_eq_true]
    rw [e2]
    simp only [if_true]
    rw [matchRnum]
    have e3 : (('R' : Char) == 'R' || ('R' : Char) == 'r') = true := by decide
    rw [e3]
    simp [hrt]
  show find_id_from_url (String.mk ('R' :: d :: r2)) = String.mk ('R' :: d :: r2)
  unfold find_id_from_url famWorkday
  rw [show (String.mk ('R' :: d :: r2)).data = 'R' :: d :: r2 from rfl, hsw]
  rfl

theorem orSS_empty (s : String) : orSS s "" = s := by
  unfold orSS
  split_ifs with h
  · exact h.symm
  · rfl

/-! ## Claim theorems -/

/-- C4 (amended): `find_id_from_url` applies the three pattern families
in order — Workday requisition, `/jobs/<digits>`, then the generic 8+
slug family (whose prefixes are `/jobs/`, `/job/` or `/postings/`) —
and returns the first family's match, the empty string when none match;
on a URL matching both the Workday family and the generic slug family
the Workday result wins. -/
theorem find_id_family_order :
    (∀ u : String, find_id_from_url u =
      (((famWorkday u).orElse (fun _ => famJobsNum u)).orElse (fun _ => famSlug u)).getD "")
    ∧ famWorkday "https://x.com/jobs/r-12345678" = some "R12345678"
    ∧ famSlug "https://x.com/jobs/r-12345678" = some "r-12345678"
    ∧ find_id_from_url "https://x.com/jobs/r-12345678" = "R12345678"
    ∧ find_id_from_url "https://boards.greenhouse.io/acme/jobs/1234567" = "1234567"
    ∧ find_id_from_url "https://acme.wd5.myworkdayjobs.com/en-US/job/NYC/Eng_R-362134" = "R362134"
    ∧ find_id_from_url "nothing here" = "" := by
  refine ⟨?_, rfl, rfl, rfl, rfl, rfl, rfl⟩
  intro u
  unfold find_id_from_url
  cases h1 : famWorkday u with
  | some r => simp [h1, Option.orElse]
  | none =>
    cases h2 : famJobsNum u with
    | some r => simp [h1, h2, Option.orElse]
    | none =>
      cases h3 : famSlug u with
      | some r => simp [h1, h2, h3, Option.orElse]
      | none => simp [h1, h2, h3, Option.orElse]

/-- C4 counterexample: the third family of the code also accepts the
singular `/job/` (from the regex `jobs?`): a URL that contains neither
`/jobs/` nor `/postings/` (nor the other two families) still yields a
non-empty identifier, which the claim's three families would not. -/
theorem find_id_accepts_job_singular :
    find_id_from_url "https://a.co/job/abcdefghi" = "abcdefghi"
    ∧ famWorkday "https://a.co/job/abcdefghi" = none
    ∧ famJobsNum "https://a.co/job/abcdefghi" = none
    ∧ pyIn "/jobs/" "https://a.co/job/abcdefghi" = false
    ∧ pyIn "/postings/" "https://a.co/job/abcdefghi" = false :=
  ⟨rfl, rfl, rfl, rfl, rfl⟩

/-- C5 (amended): `find_id_from_url` is idempotent on every URL whose
identifier comes from the Workday family (the result `R` + digits
re-matches that family); it is not idempotent in general (see the
counterexample: a bare digit or slug result matches no family). -/
theorem find_id_idempotent_on_workday (u : String) (ds : List Char)
    (h : searchWorkday none u.data = some ds) :
    find_id_from_url (find_id_from_url u) = find_id_from_url u := by
  have hfw : famWorkday u = some (String.mk ('R' :: ds)) := by
    unfold famWorkday
    rw [h]
    rfl
  have hfu : find_id_from_url u = String.mk ('R' :: ds) := by
    unfold find_id_from_url
    rw [hfw]
  obtain ⟨hall, hlen⟩ := searchWorkday_digits u.data none ds h
  rw [hfu, find_id_on_R_digits ds hall hlen]

theorem find_id_idempotent_on_workday_witness :
    find_id_from_url (find_id_from_url "x_R362134/y") = find_id_from_url "x_R362134/y" :=
  find_id_idempotent_on_workday "x_R362134/y" "362134".data rfl

/-- C5 counterexample: `find_id_from_url "/jobs/123" = "123"`, but a
second application yields `""` (a bare digit string matches none of
the three families), so the function is not idempotent. -/
theorem find_id_not_idempotent :
    find_id_from_url (find_id_from_url "/jobs/123") ≠ find_id_from_url "/jobs/123" := by
  decide

/-- C6: `detect_period_from_text` scans the seasons in the fixed order
spring, summer, fall, winter and returns the capitalized season name on
the first trigger-phrase hit; with no direct keyword but a month
abbreviation present it uses the fixed buckets in order
summer, spring(mar/apr), fall, spring(jan/feb); and the calendar
fallback `guess_period` maps months 1-4 to Spring, 5-8 to Summer and
9-12 to Fall, never to Winter.  Concretely: a text containing
`Summer 2025 Internship` yields `Summer`, a text containing only `Dec`
yields `Fall`, and the empty text with current month 3 yields `Spring`
via the fallback. -/
theorem detect_period_spec :
    (∀ m : Int, guess_period m =
      if 1 ≤ m ∧ m ≤ 4 then "Spring"
      else if 5 ≤ m ∧ m ≤ 8 then "Summer"
      else if 9 ≤ m ∧ m ≤ 12 then "Fall"
      else "")
    ∧ (∀ m : Int, guess_period m ≠ "Winter")
    ∧ detect_period_from_text ["Summer 2025 Internship"] = "Summer"
    ∧ detect_period_from_text ["Dec"] = "Fall"
    ∧ (detect_period_from_text [""] = "" ∧ guess_period 3 = "Spring")
    ∧ detect_period_from_text ["spring summer"] = "Spring"
    ∧ detect_period_from_text ["fall spring"] = "Spring"
    ∧ detect_period_from_text ["mar may"] = "Summer"
    ∧ detect_period_from_text ["winter dec"] = "Winter" := by
  refine ⟨?_, ?_, rfl, rfl, ⟨rfl, rfl⟩, rfl, rfl, rfl, rfl⟩
  · intro m
    rw [guess_period, orSS_empty]
    rfl
  · intro m
    rw [guess_period, orSS_empty]
    unfold month_to_season
    split_ifs <;> decide

/-- C8: a failed HTML fetch (or any exception out of `scrape`) is not
fatal to record creation: the caller downgrades to the empty metadata
mapping and still assembles the full 20-entry row from the user
overrides and configured defaults alone, with the URL still in the
Application Link column. -/
theorem scrape_failure_not_fatal :
    ∀ (e : Unit) (args : Args) (cfg : Config) (d : String) (mo : Int),
      main_row (.error e) args cfg d mo = build_row args cfg d mo Meta.empty
      ∧ (main_row (.error e) args cfg d mo).length = 20
      ∧ (main_row (.error e) args cfg d mo).get? 6 = some args.url := by
  intro e args cfg d mo
  exact ⟨rfl, rfl, rfl⟩

/-- C10: `_safe_format_now` never propagates a `ValueError` from the
caller's format: provided the fallback format `"%Y-%m-%d %H:%M:%S"`
formats successfully (it always does for `datetime.strftime`), the
result is always `some`; a rejected format falls back to the default
format's output; an accepted format is used as is; and on Windows the
`%-` flags are first rewritten to their `%#` equivalents. -/
theorem safe_format_now_total :
    ∀ (isWin : Bool) (strftime : String → Option String) (fmt d : String),
      strftime "%Y-%m-%d %H:%M:%S" = some d →
      (safe_format_now isWin strftime fmt).isSome = true
      ∧ (strftime (if isWin then winFix fmt else fmt) = none →
          safe_format_now isWin strftime fmt = some d)
      ∧ (∀ r, strftime (if isWin then winFix fmt else fmt) = some r →
          safe_format_now isWin strftime fmt = some r)
      ∧ winFix "%-d %-m %-H %-I %-M %-S" = "%#d %#m %#H %#I %#M %#S" := by
  intro isWin st fmt d hdef
  refine ⟨?_, ?_, ?_, rfl⟩
  · cases hf : st (if isWin then winFix fmt else fmt) with
    | some s => simp [safe_format_now, hf]
    | none => simp [safe_format_now, hf, hdef]
  · intro hn
    simp [safe_format_now, hn, hdef]
  · intro r hr
    simp [safe_format_now, hr]

theorem safe_format_now_total_witness :
    safe_format_now false (fun f => if f = "%Q" then none else some f) "%Q"
      = some "%Y-%m-%d %H:%M:%S" :=
  (safe_format_now_total false (fun f => if f = "%Q" then none else some f) "%Q"
    "%Y-%m-%d %H:%M:%S" rfl).2.1 rfl

theorem isSome_map_cleanWs (o : Option String) : (o.map cleanWs).isSome = o.isSome := by
  cases o <;> rfl

theorem firstNonEmpty_eq_empty_iff (l : List String) :
    firstNonEmpty l = "" ↔ ∀ s ∈ l, s = "" := by
  induction l with
  | nil => simp [firstNonEmpty]
  | cons s rest ih =>
    simp only [firstNonEmpty]
    split_ifs with hs
    · simp [hs, ih]
    · simp [hs]

theorem normalize_industry_result (raw : String) (allowed : List String)
    (aliases : List (String × String)) :
    normalize_industry raw allowed aliases = ""
    ∨ normalize_industry raw allowed aliases ∈ allowed
    ∨ ∃ kv, kv ∈ aliases ∧ normalize_industry raw allowed aliases = kv.2 := by
  simp only [normalize_industry]
  split_ifs with h0
  · exact Or.inl rfl
  · cases h1 : allowed.find? (fun a => pyStrip (pyLower raw) == pyLower a) with
    | some a =>
      exact Or.inr (Or.inl (List.mem_of_find?_eq_some h1))
    | none =>
      cases h2 : aliases.find? (fun kv => pyLower kv.1 == pyStrip (pyLower raw)) with
      | some kv =>
        exact Or.inr (Or.inr ⟨kv, List.mem_of_find?_eq_some h2, rfl⟩)
      | none =>
        cases h3 : aliases.find? (fun kv => pyIn (pyLower kv.1) (pyStrip (pyLower raw))) with
        | some kv =>
          exact Or.inr (Or.inr ⟨kv, List.mem_of_find?_eq_some h3, rfl⟩)
        | none =>
          exact Or.inl rfl

theorem choose_first_match_result (text : String) (rules : List (String × List String))
    (allowed : List String) :
    choose_first_match text rules allowed = "" ∨ choose_first_match text rules allowed ∈ allowed := by
  simp only [choose_first_match]
  cases h1 : allowed.find?
      (fun label => ((List.lookup label rules).getD []).any (fun kw => pyIn (pyLower kw) (pyLower text))) with
  | some label =>
    exact Or.inr (List.mem_of_find?_eq_some h1)
  | none =>
    exact Or.inl rfl

/-- C3 (amended): `choose_first_match` only ever returns a member of its
allowed list or the empty string, so the rule stage of
`classify_industry` respects the allowed universe unconditionally; the
alias stage of `normalize_industry`, however, returns alias-map values
unchecked, so the invariant holds under the hypothesis that every alias
value lies in the allowed list (see the counterexample for an alias map
that breaks it). -/
theorem industry_labels_within_allowed :
    (∀ (raw : String) (allowed : List String) (aliases : List (String × String)),
      (∀ kv ∈ aliases, kv.2 ∈ allowed) →
      normalize_industry raw allowed aliases ∈ allowed
      ∨ normalize_industry raw allowed aliases = "")
    ∧ (∀ (title company url : String) (cfg : Config),
      (∀ kv ∈ cfg.industry_aliases, kv.2 ∈ cfg.industry_allowed) →
      classify_industry title company url cfg ∈ cfg.industry_allowed
      ∨ classify_industry title company url cfg = "") := by
  have hn : ∀ (raw : String) (allowed : List String) (aliases : List (String × String)),
      (∀ kv ∈ aliases, kv.2 ∈ allowed) →
      normalize_industry raw allowed aliases ∈ allowed
      ∨ normalize_industry raw allowed aliases = "" := by
    intro raw allowed aliases hal
    rcases normalize_industry_result raw allowed aliases with h | h | ⟨kv, hkv, h⟩
    · exact Or.inr h
    · exact Or.inl h
    · exact Or.inl (h ▸ hal kv hkv)
  refine ⟨hn, ?_⟩
  intro title company url cfg hal
  simp only [classify_industry]
  split_ifs with h
  · rcases choose_first_match_result (pyJoinSpace [title, company, url])
        cfg.industry_rules cfg.industry_allowed with hc | hc
    · exact absurd hc h
    · exact Or.inl hc
  · rw [orSS_empty]
    exact hn _ _ _ hal

theorem industry_labels_within_allowed_witness :
    normalize_industry "FinTech" ["Finance", "Tech"] [("fintech", "Finance")] ∈ ["Finance", "Tech"]
    ∨ normalize_industry "FinTech" ["Finance", "Tech"] [("fintech", "Finance")] = "" :=
  industry_labels_within_allowed.1 "FinTech" ["Finance", "Tech"] [("fintech", "Finance")]
    (by decide)

/-- C3 counterexample: `normalize_industry` returns the alias value
unchecked, so with an alias map whose value lies outside the allowed
list it returns a label outside the allowed universe and not empty. -/
theorem normalize_industry_escapes_allowed :
    normalize_industry "foo" ["Finance"] [("foo", "Bar")] = "Bar"
    ∧ ("Bar" : String) ∉ ["Finance"]
    ∧ ("Bar" : String) ≠ "" := by
  refine ⟨rfl, ?_, ?_⟩ <;> decide

/-- C1 (amended): provided the JSON-LD step returns (does not raise —
see the counterexample, where a truthy non-string organization name
makes `org["name"].strip()` raise), `resolve_company` returns the first
non-empty result of the five steps in the fixed order hostname-map,
JSON-LD, `og:site_name`, tenant URL pattern, capitalized registrable
domain; it returns the empty string exactly when all five steps fail,
which for the last step means a URL with no extractable domain. -/
theorem resolve_company_fallback_chain (url : Url) (soup : Soup) (cfg : Config) (c : String)
    (h : company_from_jsonld soup = .ok c) :
    resolve_company url soup cfg
      = .ok (firstNonEmpty [step_map cfg url, c, company_from_meta soup,
          company_from_url_pattern url.raw, step_domain url])
    ∧ (resolve_company url soup cfg = .ok "" ↔
        (step_map cfg url = "" ∧ c = "" ∧ company_from_meta soup = ""
          ∧ company_from_url_pattern url.raw = "" ∧ url.extDomain = "")) := by
  have hmain : resolve_company url soup cfg
      = .ok (firstNonEmpty [step_map cfg url, c, company_from_meta soup,
          company_from_url_pattern url.raw, step_domain url]) := by
    simp only [resolve_company, firstNonEmpty]
    rw [h]
    by_cases h1 : step_map cfg url = "" <;>
      by_cases h2 : c = "" <;>
      by_cases h3 : company_from_meta soup = "" <;>
      by_cases h4 : company_from_url_pattern url.raw = "" <;>
      by_cases h5 : step_domain url = "" <;>
      simp [h1, h2, h3, h4, h5]
  refine ⟨hmain, ?_⟩
  rw [hmain]
  simp only [Except.ok.injEq]
  rw [firstNonEmpty_eq_empty_iff]
  simp [List.forall_mem_cons, step_domain_empty_iff]

theorem resolve_company_fallback_chain_witness :
    resolve_company ⟨"https://boards.greenhouse.io/acme/jobs/1234567", "boards.greenhouse.io", "greenhouse", "io"⟩
        ⟨[], none, none, none, none, none, none, none, none, none, none, none⟩
        ⟨[], [], [], [], "", ""⟩
      = .ok "Acme" :=
  ((resolve_company_fallback_chain
    ⟨"https://boards.greenhouse.io/acme/jobs/1234567", "boards.greenhouse.io", "greenhouse", "io"⟩
    ⟨[], none, none, none, none, none, none, none, none, none, none, none⟩
    ⟨[], [], [], [], "", ""⟩ "" rfl).1).trans rfl

/-- C1 counterexample: on a document whose JSON-LD JobPosting has a
truthy non-string `hiringOrganization.name` (here the number 5), the
source raises `AttributeError` out of `resolve_company` instead of
returning any value, so the function does not return the first
non-empty step result on every parsed document. -/
theorem resolve_company_raises_on_nonstring_org :
    resolve_company ⟨"https://x.com/a", "x.com", "x", "com"⟩
        ⟨[some (Json.obj [("@type", Json.str "JobPosting"),
            ("hiringOrganization", Json.obj [("name", Json.num 5)])])],
          none, none, none, none, none, none, none, none, none, none, none⟩
        ⟨[], [], [], [], "", ""⟩
      = .error () := rfl

/-- C2: in `scrape`, when the adapter company guess (trimmed) is empty
or lower-cases to one of the four generic site names, the company field
carries the resolver result; otherwise the adapter guess is kept
regardless of the resolver output; the resolver result is additionally
retained under the diagnostic `__resolved_company` key.  (Per lines
480-482 of the source, both values are finally whitespace-normalized,
hence the `cleanWs`.) -/
theorem scrape_company_precedence (url : Url) (soup : Soup) (cfg : Config)
    (resolved : String) (out : Meta)
    (hr : resolve_company url soup cfg = .ok resolved)
    (hs : scrape url soup cfg = .ok out) :
    out.company = some (cleanWs
      (if pyStrip ((scrape_adapter_out url soup).company.getD "") = ""
          || GENERIC_SITES.contains (pyLower (pyStrip ((scrape_adapter_out url soup).company.getD ""))) then
        resolved
      else pyStrip ((scrape_adapter_out url soup).company.getD "")))
    ∧ out.resolvedCompany = some (cleanWs resolved) := by
  unfold scrape at hs
  rw [hr] at hs
  injection hs with hs2
  subst hs2
  rw [set_default_title_company]
  constructor
  · split <;> simp [cleanMeta]
  · simp [cleanMeta]

theorem scrape_company_precedence_witness :
    (⟨some "Dev", some "Acme Corp", none, some "Acme"⟩ : Meta).resolvedCompany
      = some (cleanWs "Acme") :=
  (scrape_company_precedence
    ⟨"https://jobs.acme.com/careers/1", "jobs.acme.com", "acme", "com"⟩
    ⟨[], none, some "Dev - Acme  Corp", none, none, none, none, none, none, none, none, none⟩
    ⟨[], [], [], [], "", ""⟩ "Acme"
    ⟨some "Dev", some "Acme Corp", none, some "Acme"⟩ rfl rfl).2


theorem scrape_body_fields (X : Meta) (resolved : String) (cond : Bool) :
    (cleanMeta {(if cond = true then {X with company := some resolved}
        else {X with company := some (pyStrip (X.company.getD ""))}) with
        resolvedCompany := some resolved}).title.isSome = X.title.isSome
    ∧ (cleanMeta {(if cond = true then {X with company := some resolved}
        else {X with company := some (pyStrip (X.company.getD ""))}) with
        resolvedCompany := some resolved}).company.isSome = true
    ∧ (cleanMeta {(if cond = true then {X with company := some resolved}
        else {X with company := some (pyStrip (X.company.getD ""))}) with
        resolvedCompany := some resolved}).resolvedCompany.isSome = true := by
  cases cond <;> simp [cleanMeta, isSome_map_cleanWs]

/-- C9: whenever the fetch and parse succeed (and the resolver does not
raise), the mapping `scrape` returns always contains the keys `title`,
`company` and `__resolved_company` — possibly bound to the empty
string, as the concrete second conjunct shows for a document with no
extractable content — unlike the adapter boundary, where keys are
simply absent. -/
theorem scrape_core_keys_always_present :
    (∀ (url : Url) (soup : Soup) (cfg : Config) (m : Meta),
      scrape url soup cfg = .ok m →
      m.title.isSome = true ∧ m.company.isSome = true ∧ m.resolvedCompany.isSome = true)
    ∧ scrape ⟨"", "", "", ""⟩ ⟨[], none, none, none, none, none, none, none, none, none, none, none⟩
        ⟨[], [], [], [], "", ""⟩
      = .ok ⟨some "", some "", none, some ""⟩ := by
  constructor
  · intro url soup cfg m h
    unfold scrape at h
    cases hr : resolve_company url soup cfg with
    | error e =>
      rw [hr] at h
      exact absurd h (by simp)
    | ok resolved =>
      rw [hr] at h
      injection h with h2
      subst h2
      obtain ⟨h1, h2, h3⟩ := scrape_body_fields
        (set_default_title (scrape_adapter_out url soup)
          (if (parse_opengraph soup).1 ≠ "" then
            pyStrip (String.mk ((parse_opengraph soup).1.data.takeWhile (fun c => c != '|')))
          else ""))
        resolved
        (pyStrip ((set_default_title (scrape_adapter_out url soup)
          (if (parse_opengraph soup).1 ≠ "" then
            pyStrip (String.mk ((parse_opengraph soup).1.data.takeWhile (fun c => c != '|')))
          else "")).company.getD "") = ""
          || GENERIC_SITES.contains (pyLower (pyStrip ((set_default_title (scrape_adapter_out url soup)
          (if (parse_opengraph soup).1 ≠ "" then
            pyStrip (String.mk ((parse_opengraph soup).1.data.takeWhile (fun c => c != '|')))
          else "")).company.getD ""))))
      refine ⟨?_, h2, h3⟩
      rw [h1]
      exact set_default_title_isSome _ _
  · rfl

theorem adapter_generic_company_ne_empty (soup : Soup) (c : String)
    (hc : (adapter_generic soup).company = some c) : c ≠ "" := by
  by_cases ht : (parse_opengraph soup).1 = ""
  · cases htag : soup.titleTag <;> simp [adapter_generic, ht, htag, Meta.empty] at hc
  · cases hp : List.filter (fun p => !decide (p = "")) (List.map pyStrip (pySplit (parse_opengraph soup).1 " - ")) with
    | nil =>
      cases htag : soup.titleTag <;> simp [adapter_generic, ht, hp, htag, Meta.empty] at hc
    | cons p rest =>
      have hpne : p ≠ "" := by
        have hmem : p ∈ List.filter (fun p => !decide (p = ""))
            (List.map pyStrip (pySplit (parse_opengraph soup).1 " - ")) := by
          rw [hp]
          simp
        simpa using (List.mem_filter.mp hmem).2
      cases rest with
      | nil =>
        cases htag : soup.titleTag <;> simp [adapter_generic, ht, hp, htag, hpne, Meta.empty] at hc
      | cons q rest2 =>
        have hqne : q ≠ "" := by
          have hmem : q ∈ List.filter (fun p => !decide (p = ""))
              (List.map pyStrip (pySplit (parse_opengraph soup).1 " - ")) := by
            rw [hp]
            simp
          simpa using (List.mem_filter.mp hmem).2
        simp [adapter_generic, ht, hp, hpne, Meta.empty] at hc
        exact hc ▸ hqne

/-- C7 (amended): every key in an adapter's output mapping comes from a
found element or a non-empty Open-Graph value — when nothing was found
the key is absent (`none`), never bound to an empty string by default —
but a found element whose stripped text is empty does yield the key
present with the empty string (see the counterexample), so the claim's
"every present key is non-empty" fails while its absence half holds.
For the generic adapter, an Open-Graph-derived company is always
non-empty because the split parts are filtered to non-empty. -/
theorem adapter_outputs_follow_found_elements (soup : Soup) :
    (adapter_greenhouse soup).title = soup.ghHeader
    ∧ (adapter_greenhouse soup).company = soup.ghCompany
    ∧ (adapter_greenhouse soup).location = soup.ghLocation
    ∧ (adapter_lever soup).title = soup.leverHeader
    ∧ (adapter_lever soup).company = none
    ∧ (adapter_workday soup).title = soup.h1
    ∧ (adapter_workday soup).company = none
    ∧ (soup.twitterDesc = none → soup.ogDesc = none → (adapter_workday soup).location = none)
    ∧ ((adapter_linkedin soup).title.isSome ↔ (parse_opengraph soup).1 ≠ "")
    ∧ (soup.ogTitle = none → soup.titleTag = none →
        (adapter_generic soup).title = none ∧ (adapter_generic soup).company = none)
    ∧ (∀ c, (adapter_generic soup).company = some c → c ≠ "") := by
  refine ⟨rfl, rfl, rfl, rfl, rfl, rfl, rfl, ?_, ?_, ?_, ?_⟩
  · intro h1 h2
    simp [adapter_workday, workdayLocFrom, h1, h2]
  · simp only [adapter_linkedin]
    split_ifs with h
    · simp [h]
    · simp [h]
  · intro h1 h2
    constructor <;> simp [adapter_generic, parse_opengraph, h1, h2, Meta.empty]
  · exact adapter_generic_company_ne_empty soup

/-- C7 counterexample: a Greenhouse page whose posting header element
exists but has empty stripped text (an empty `h1`) makes the adapter
return the `title` key present and bound to the empty string, not
absent. -/
theorem adapter_greenhouse_empty_header_key_present :
    (adapter_greenhouse ⟨[], none, none, some "", none, none, none, none, none, none, none, none⟩).title
      = some "" := rfl

theorem adapter_outputs_follow_found_elements_witness :
    (adapter_generic ⟨[], none, none, none, none, none, none, none, none, none, none, none⟩).title = none
    ∧ (adapter_generic ⟨[], none, none, none, none, none, none, none, none, none, none, none⟩).company = none :=
  (adapter_outputs_follow_found_elements
    ⟨[], none, none, none, none, none, none, none, none, none, none, none⟩).2.2.2.2.2.2.2.2.2.1 rfl rfl

theorem scrape_core_keys_always_present_witness :
    (⟨some "", some "", none, some ""⟩ : Meta).title.isSome = true
    ∧ (⟨some "", some "", none, some ""⟩ : Meta).company.isSome = true
    ∧ (⟨some "", some "", none, some ""⟩ : Meta).resolvedCompany.isSome = true :=
  scrape_core_keys_always_present.1 ⟨"", "", "", ""⟩
    ⟨[], none, none, none, none, none, none, none, none, none, none, none⟩
    ⟨[], [], [], [], "", ""⟩ ⟨some "", some "", none, some ""⟩
    scrape_core_keys_always_present.2
